import Mathlib

/-!
Verification development for the goroyale rate-limit-aware request gateway
(src/client.go and src/structs.go), as a shallow embedding in Lean.

Machine integers (Go `int`, `int64`, `time.Duration` in nanoseconds, epoch
milliseconds) are modelled as `Int`; none of the verified behaviour involves
overflow.  HTTP headers are modelled as association lists of strings; Go's
MIME canonicalisation of header keys is the identity at this abstraction
because every lookup uses a fixed, distinct key.  Strings are compared
code-point-wise, which agrees with Go's byte-wise comparison on the ASCII
data involved.
-/

namespace Goroyale

/-- A response header set: list of key-value pairs. -/
abbrev Headers := List (String × String)

/-- Model of `http.Header.Get`: first value for the key, or the empty string
when the header is absent (Go returns "" in that case). -/
def headerGet (hdrs : Headers) (key : String) : String :=
  match hdrs.find? (fun p => p.1 == key) with
  | some p => p.2
  | none => ""

/-- Numeric value of an ASCII digit, `none` for any other character. -/
def digitVal (c : Char) : Option Nat :=
  if '0' ≤ c ∧ c ≤ '9' then some (c.toNat - '0'.toNat) else none

/-- Accumulate a base-10 natural from a digit list; fails on a non-digit. -/
def parseNatAux : List Char → Nat → Option Nat
  | [], acc => some acc
  | c :: cs, acc =>
    match digitVal c with
    | some d => parseNatAux cs (acc * 10 + d)
    | none => none

/-- Model of Go `strconv.Atoi` / `strconv.ParseInt(s, 10, 64)`: an optional
sign followed by at least one digit; anything else is a syntax error. -/
def atoi (s : String) : Except String Int :=
  match s.toList with
  | [] => Except.error "strconv: invalid syntax"
  | '+' :: cs =>
    if cs = [] then Except.error "strconv: invalid syntax"
    else
      match parseNatAux cs 0 with
      | some n => Except.ok (n : Int)
      | none => Except.error "strconv: invalid syntax"
  | '-' :: cs =>
    if cs = [] then Except.error "strconv: invalid syntax"
    else
      match parseNatAux cs 0 with
      | some n => Except.ok (-(n : Int))
      | none => Except.error "strconv: invalid syntax"
  | cs =>
    match parseNatAux cs 0 with
    | some n => Except.ok (n : Int)
    | none => Except.error "strconv: invalid syntax"

/-- `type ratelimit struct` from src/client.go: `remaining int` and
`reset int64` (epoch milliseconds).  Go zero value is both fields 0. -/
structure ratelimit where
  remaining : Int
  reset : Int
  deriving Repr, DecidableEq

/-- `Client.checkRatelimit` from src/client.go (lines 79-87), acting on the
client's `ratelimit` field; `now` is `time.Now().UnixNano() / 1000000`.
The Go code returns `nil` when `remaining == 0 || reset == 0`, and only
otherwise tests `remaining == 0 && now < reset` to build the
"ratelimit, retry in" error. -/
def checkRatelimit (rl : ratelimit) (now : Int) : Option String :=
  if rl.remaining = 0 ∨ rl.reset = 0 then none
  else if rl.remaining = 0 ∧ now < rl.reset then
    some ("ratelimit, retry in: " ++ toString (rl.reset - now))
  else none

/-- Second half of `Client.updateRatelimit` (src/client.go lines 97-106):
read "x-ratelimit-reset", and when present parse it with
`strconv.ParseInt(reset, 10, 64)`; on parse failure return the error with
the state as updated so far, otherwise store the parsed value in `reset`. -/
def updateReset (hdrs : Headers) (rl : ratelimit) : ratelimit × Option String :=
  let reset := headerGet hdrs "x-ratelimit-reset"
  if reset = "" then (rl, none)
  else
    match atoi reset with
    | Except.error e => (rl, some e)
    | Except.ok n => ({ rl with reset := n }, none)

/-- `Client.updateRatelimit` from src/client.go (lines 89-107), acting on the
client's `ratelimit` field with the response headers: read
"x-ratelimit-remaining", when present parse it with `strconv.Atoi` (early
return of the error on failure, state unchanged so far), store it in
`remaining`; then handle "x-ratelimit-reset" (so a reset-parse failure
still keeps the already-written `remaining`).  Returns the updated state
together with the returned error (`none` for Go `nil`). -/
def updateRatelimit (hdrs : Headers) (rl : ratelimit) : ratelimit × Option String :=
  let remaining := headerGet hdrs "x-ratelimit-remaining"
  if remaining = "" then updateReset hdrs rl
  else
    match atoi remaining with
    | Except.error e => (rl, some e)
    | Except.ok n => updateReset hdrs { rl with remaining := n }

/-- `type Client struct` from src/client.go: the token, the transport's
timeout (nanoseconds, from `http.Client.Timeout`) and the ratelimit state. -/
structure Client where
  Token : String
  timeout : Int
  ratelimit : ratelimit
  deriving Repr, DecidableEq

/-- Outcome of `New` (src/client.go lines 30-42): the Go function panics on
an empty token; otherwise it fills in the client and returns it with the
(never-assigned, hence nil) error result. -/
inductive NewResult where
  | panic (msg : String)
  | ok (c : Client) (err : Option String)
  deriving Repr, DecidableEq

/-- `New` from src/client.go (lines 30-42): panic on empty token, else a
client with a 10-second default timeout when `timeout == 0` (10e9 ns) and
zero-valued ratelimit state; the `err` named return is never assigned. -/
def New (token : String) (timeout : Int) : NewResult :=
  if token = "" then
    NewResult.panic "Client requires token for authorization with the API."
  else
    NewResult.ok
      { Token := token
        timeout := if timeout = 0 then 10 * 1000000000 else timeout
        ratelimit := { remaining := 0, reset := 0 } }
      none

/-- `type Args struct` from src/client.go: `Keys []string`, `Exclude
[]string`, `Max int`, `Page int`.  `none` models a nil slice (the code
tests `!= nil`); the zero value is `⟨none, none, 0, 0⟩`. -/
structure Args where
  Keys : Option (List String)
  Exclude : Option (List String)
  Max : Int
  Page : Int
  deriving Repr, DecidableEq

/-- Model of `url.Values`: keys with their value lists, in insertion order
(Go's map has no order; `Encode` sorts, so order is irrelevant there). -/
abbrev Values := List (String × List String)

/-- Model of `url.Values.Set`: replace the key's values with the single
value, or add the key. -/
def valuesSet (q : Values) (key val : String) : Values :=
  if q.any (fun p => p.1 == key) then
    q.map (fun p => if p.1 == key then (p.1, [val]) else p)
  else q ++ [(key, [val])]

/-- Values of a key, `[]` when absent (for `Encode`'s per-key loop). -/
def valuesGet (q : Values) (key : String) : List String :=
  match q.find? (fun p => p.1 == key) with
  | some p => p.2
  | none => []

/-- Model of `strings.Join(xs, sep)` where `xs` may be a nil slice (Go joins
a nil slice to the empty string). -/
def goJoin (xs : Option (List String)) (sep : String) : String :=
  match xs with
  | none => ""
  | some l => String.intercalate sep l

/-- Model of Go's `string(i)` conversion on an `int`: the UTF-8 string of
the code point `i`, or the replacement character for an invalid code
point.  (This is what src/client.go applies to `Max` and `Page` — not a
decimal rendering.) -/
def goStringOfInt (n : Int) : String :=
  if 0 ≤ n ∧ n < 1114112 ∧ (n < 55296 ∨ 57343 < n) then
    String.singleton (Char.ofNat n.toNat)
  else "�"

/-- True when `url.QueryEscape` must escape the character: everything except
ASCII alphanumerics and `-`, `_`, `.`, `~` (space handled separately). -/
def shouldEscape (c : Char) : Bool :=
  !(c.isAlphanum || c = '-' || c = '_' || c = '.' || c = '~')

/-- Upper-case hex digit. -/
def hexDigit (n : Nat) : Char := "0123456789ABCDEF".toList.getD n '0'

/-- Escape one character as `url.QueryEscape` does (ASCII data: one byte per
code point). -/
def queryEscapeChar (c : Char) : String :=
  if c = ' ' then "+"
  else if shouldEscape c then
    "%" ++ String.singleton (hexDigit (c.toNat / 16)) ++
      String.singleton (hexDigit (c.toNat % 16))
  else String.singleton c

/-- Model of `url.QueryEscape` on ASCII strings. -/
def queryEscape (s : String) : String :=
  String.join (s.toList.map queryEscapeChar)

/-- Insert a string into an ascendingly sorted list. -/
def insertSorted (s : String) : List String → List String
  | [] => [s]
  | t :: ts =>
    if compare s t == Ordering.gt then t :: insertSorted s ts
    else s :: t :: ts

/-- Sort strings ascending, as `url.Values.Encode` sorts its keys. -/
def sortStrings : List String → List String
  | [] => []
  | s :: ss => insertSorted s (sortStrings ss)

/-- The `k=v` components of `url.Values.Encode`, over the given key order. -/
def encodePairs (q : Values) : List String → List String
  | [] => []
  | k :: ks =>
    ((valuesGet q k).map (fun v => queryEscape k ++ "=" ++ queryEscape v)) ++
      encodePairs q ks

/-- Model of `url.Values.Encode`: keys sorted, each `key=value` pair
escaped, joined by `&`. -/
def valuesEncode (q : Values) : String :=
  String.intercalate "&" (encodePairs q (sortStrings (q.map Prod.fst)))

/-- `Args.toQuery` from src/client.go (lines 58-77).  Note the source joins
`args.Keys` — not `args.Exclude` — under the `args.Exclude != nil` guard,
and converts `Max`/`Page` with Go's `string(int)` conversion. -/
def Args.toQuery (args : Args) : Values :=
  let q : Values := []
  let q := match args.Keys with
    | some _ => valuesSet q "keys" (goJoin args.Keys ",")
    | none => q
  let q := match args.Exclude with
    | some _ => valuesSet q "exclude" (goJoin args.Keys ",")
    | none => q
  let q := if args.Max ≠ 0 then valuesSet q "max" (goStringOfInt args.Max) else q
  let q := if args.Page ≠ 0 then valuesSet q "page" (goStringOfInt args.Page) else q
  q

/-- The fixed service base URL (src/client.go line 14). -/
def baseURL : String := "https://api.royaleapi.com"

/-- An HTTP response as `get` consumes it: the status code (which the
source never reads), the headers, and the outcome of
`ioutil.ReadAll(resp.Body)` — the bytes read together with the read
error that `ReadAll` returned beside them (`none` for Go `nil`). -/
structure HttpResponse where
  statusCode : Nat
  headers : Headers
  body : List Char
  bodyErr : Option String
  deriving Repr, DecidableEq

/-- Outcome of the single `c.client.Do(req)` call a `get` performs: either
a network-level failure (no response received) or a response. -/
inductive TransportResult where
  | failure (e : String)
  | success (resp : HttpResponse)
  deriving Repr, DecidableEq

/-- The request `get` hands to the transport: URL, `auth` header value and
encoded raw query (src/client.go lines 115-121). -/
structure Request where
  url : String
  auth : String
  rawQuery : String
  deriving Repr, DecidableEq

/-- Builds the request exactly as `get` does: `baseURL + path`, the stored
token in the `auth` header, `args.toQuery().Encode()` as the raw query. -/
def mkRequest (c : Client) (path : String) (args : Args) : Request :=
  { url := baseURL ++ path, auth := c.Token, rawQuery := valuesEncode args.toQuery }

/-- The error values `get` can return, by origin. -/
inductive GetErr where
  | ratelimitErr (msg : String)
  | transportErr (e : String)
  | readErr (e : String)
  | headerParseErr (e : String)
  deriving Repr, DecidableEq

/-- Result of `get`: the `bytes` named return, the `err` named return, the
client's ratelimit state after the call, and the request handed to the
transport (`none` when the transport was never invoked). -/
structure GetOutcome where
  bytes : List Char
  err : Option GetErr
  state : ratelimit
  request : Option Request
  deriving Repr, DecidableEq

/-- `Client.get` from src/client.go (lines 109-131).  `now` is the
admission check's clock reading; `transport` is the outcome of the one
`c.client.Do(req)` call.  Control flow of the source: return early on a
`checkRatelimit` error (no request made); return early on a transport
error (state untouched); otherwise assign `bytes, err` from `ReadAll` and
then immediately reassign `err = c.updateRatelimit(resp)`, so the read
error (`_readErr` below) is dead and the returned error is the update
step's.  `http.NewRequest` cannot fail for these inputs and is modelled
as always succeeding. -/
def get (c : Client) (path : String) (args : Args) (now : Int)
    (transport : TransportResult) : GetOutcome :=
  match checkRatelimit c.ratelimit now with
  | some msg =>
    { bytes := [], err := some (GetErr.ratelimitErr msg),
      state := c.ratelimit, request := none }
  | none =>
    let req := mkRequest c path args
    match transport with
    | TransportResult.failure e =>
      { bytes := [], err := some (GetErr.transportErr e),
        state := c.ratelimit, request := some req }
    | TransportResult.success resp =>
      let _readErr : Option GetErr := resp.bodyErr.map GetErr.readErr
      let upd := updateRatelimit resp.headers c.ratelimit
      { bytes := resp.body, err := upd.2.map GetErr.headerParseErr,
        state := upd.1, request := some req }

/-- The double-quote character, `'\x22'` (used by
`requiredForUpgrade.UnmarshalJSON`'s first-byte test). -/
def quoteChar : Char := Char.ofNat 34

/-- Outcome of `requiredForUpgrade.UnmarshalJSON` (src/structs.go lines
138-144): either a runtime panic (index out of range on `b[0]`), or a
normal return carrying the value the receiver holds afterwards and the
returned error. -/
inductive UnmarshalResult where
  | panic
  | ok (val : Int) (err : Option String)
  deriving Repr, DecidableEq

/-- `requiredForUpgrade.UnmarshalJSON` from src/structs.go (lines 138-144),
parameterised by `intUnmarshal`, the behaviour of
`json.Unmarshal(b, (*int)(r))` (which on failure leaves the target
unchanged).  `b[0]` is read unconditionally, so the empty slice panics;
a leading double quote sets the receiver to -1 and returns nil without
consulting `intUnmarshal`; anything else delegates to `intUnmarshal`. -/
def requiredForUpgradeUnmarshalJSON
    (intUnmarshal : List Char → Except String Int)
    (b : List Char) (r : Int) : UnmarshalResult :=
  match b with
  | [] => UnmarshalResult.panic
  | c :: _ =>
    if c = quoteChar then UnmarshalResult.ok (-1) none
    else
      match intUnmarshal b with
      | Except.ok v => UnmarshalResult.ok v none
      | Except.error e => UnmarshalResult.ok r (some e)

/-- Args zero value: nil slices, zero ints. -/
def args0 : Args := { Keys := none, Exclude := none, Max := 0, Page := 0 }

/-- The client `New "t" 0` constructs: default 10-second timeout, zero
ratelimit state. -/
def cFresh : Client :=
  { Token := "t", timeout := 10 * 1000000000,
    ratelimit := { remaining := 0, reset := 0 } }

/-- A client whose window is exhausted (`remaining = 0`) with a reset time
of 5000 (epoch ms) — five seconds in the future of `now = 0`. -/
def cExhausted : Client :=
  { Token := "t", timeout := 10 * 1000000000,
    ratelimit := { remaining := 0, reset := 5000 } }

/-- A non-success response: status 429, no rate-limit headers, a JSON error
payload as body (its exact content is never inspected by `get`), clean
body read. -/
def resp429 : HttpResponse :=
  { statusCode := 429, headers := [], body := "error-payload".toList,
    bodyErr := none }

/-- A response whose body read failed: `ReadAll` returned three bytes of
partial data together with an error. -/
def respReadFail : HttpResponse :=
  { statusCode := 200, headers := [], body := "par".toList,
    bodyErr := some "unexpected EOF" }

/-- `New` at a valid token evaluates to `cFresh` (sanity link between the
constructor and the concrete clients the theorems use). -/
theorem New_valid_token_eval : New "t" 0 = NewResult.ok cFresh none := rfl

/-- The first branch of `checkRatelimit` returns nil whenever
`remaining = 0`, so the error branch guarded by `remaining = 0` below it
is unreachable: the admission check never blocks, for any state and any
clock reading. -/
theorem checkRatelimit_eq_none (rl : ratelimit) (now : Int) :
    checkRatelimit rl now = none := by
  unfold checkRatelimit
  by_cases h : rl.remaining = 0
  · simp [h]
  · simp [h]

/-- `updateReset` never touches the `remaining` field, whatever the headers
hold. -/
theorem updateReset_fst_remaining (hdrs : Headers) (rl : ratelimit) :
    ((updateReset hdrs rl).1).remaining = rl.remaining := by
  simp only [updateReset]
  split
  · rfl
  · split <;> rfl

/-- C1: with `remaining = 0` and `reset = 5000` (five seconds in the future
of `now = 0`) the admission check returns nil, and `get` goes on to invoke
the transport and returns the transport's error — not the rate-limit
error the claim requires.  The guard `remaining == 0 || reset == 0` in
`checkRatelimit` makes the blocking branch unreachable. -/
theorem c1_exhausted_window_admission_eval :
    checkRatelimit cExhausted.ratelimit 0 = none ∧
    (get cExhausted "/version" args0 0 (TransportResult.failure "refused")).request =
      some (mkRequest cExhausted "/version" args0) ∧
    (get cExhausted "/version" args0 0 (TransportResult.failure "refused")).err =
      some (GetErr.transportErr "refused") :=
  ⟨rfl, rfl, rfl⟩

/-- C2: on a response with status 429, `get` never consults the status code:
it returns the raw body bytes to the caller with a nil error, producing no
APIError and leaving the caller to decode the error payload as its
expected shape. -/
theorem c2_status_not_consulted_eval :
    (get cFresh "/player/ABC" args0 0 (TransportResult.success resp429)).bytes =
      resp429.body ∧
    (get cFresh "/player/ABC" args0 0 (TransportResult.success resp429)).err =
      none ∧
    resp429.statusCode = 429 :=
  ⟨rfl, rfl, rfl⟩

/-- C3: with `Exclude = ["name"]` and all other fields zero, `toQuery`
followed by `Encode` yields `exclude=` — not `exclude=name` — because the
source joins `args.Keys` (nil) under the `args.Exclude != nil` guard. -/
theorem c3_exclude_encoding_eval :
    valuesEncode (Args.toQuery
      { Keys := none, Exclude := some ["name"], Max := 0, Page := 0 }) =
      "exclude=" ∧
    valuesEncode (Args.toQuery
      { Keys := none, Exclude := some ["name"], Max := 0, Page := 0 }) ≠
      "exclude=name" := by
  constructor
  · rfl
  · decide

/-- C4 counterexample: at the empty token (timeout 0), `New` does not return
a configuration error to the caller — it panics with the fixed message,
aborting the process. -/
theorem c4_counterexample_empty_token :
    New "" 0 =
      NewResult.panic "Client requires token for authorization with the API." :=
  rfl

/-- C4 (amended): for every timeout value, `New` with the empty token panics
with the fixed message; no usable client and no error value are ever
returned on that path. -/
theorem c4_empty_token_panics (timeout : Int) :
    New "" timeout =
      NewResult.panic "Client requires token for authorization with the API." :=
  rfl

/-- C5: on a response whose body read failed (`ReadAll` returned an error),
`get` returns a nil error: the read failure is overwritten by the
subsequent `err = c.updateRatelimit(resp)` assignment, whose success
replaces it. -/
theorem c5_read_error_swallowed_eval :
    respReadFail.bodyErr = some "unexpected EOF" ∧
    (get cFresh "/version" args0 0 (TransportResult.success respReadFail)).err =
      none ∧
    (get cFresh "/version" args0 0 (TransportResult.success respReadFail)).bytes =
      "par".toList :=
  ⟨rfl, rfl, rfl⟩

/-- C6: from any starting state, an update with `remaining=5` then one with
`remaining=0` leaves the stored remaining at 0, and any further update
whose header set lacks the remaining header (its lookup yields the empty
string) leaves it unchanged at 0: the field is overwritten exactly when
the header is present. -/
theorem c6_remaining_last_write_wins (rl : ratelimit) (hdrs : Headers)
    (habsent : headerGet hdrs "x-ratelimit-remaining" = "") :
    ((updateRatelimit [("x-ratelimit-remaining", "5")] rl).1).remaining = 5 ∧
    ((updateRatelimit [("x-ratelimit-remaining", "0")]
        (updateRatelimit [("x-ratelimit-remaining", "5")] rl).1).1).remaining = 0 ∧
    ((updateRatelimit hdrs
        (updateRatelimit [("x-ratelimit-remaining", "0")]
          (updateRatelimit [("x-ratelimit-remaining", "5")] rl).1).1).1).remaining =
      0 := by
  obtain ⟨a, b⟩ := rl
  have h1 : updateRatelimit [("x-ratelimit-remaining", "5")]
      (⟨a, b⟩ : ratelimit) = (⟨5, b⟩, none) := rfl
  have h2 : updateRatelimit [("x-ratelimit-remaining", "0")]
      (⟨5, b⟩ : ratelimit) = (⟨0, b⟩, none) := rfl
  refine ⟨?_, ?_, ?_⟩
  · simp [h1]
  · simp [h1, h2]
  · simp only [h1, h2]
    simp [updateRatelimit, habsent, updateReset_fst_remaining]

/-- C6 witness: concrete run from state (7, 3) with the empty final header
set. -/
theorem c6_witness :
    ((updateRatelimit []
        (updateRatelimit [("x-ratelimit-remaining", "0")]
          (updateRatelimit [("x-ratelimit-remaining", "5")]
            { remaining := 7, reset := 3 }).1).1).1).remaining = 0 :=
  (c6_remaining_last_write_wins { remaining := 7, reset := 3 } [] rfl).2.2

/-- C7: every client produced by `New` starts with zero-valued rate-limit
state, and its first `get` — for every path, args, clock reading and
transport behaviour — hands a request to the transport and never fails
with the local rate-limit error. -/
theorem c7_fresh_client_first_fetch_attempts (token : String) (timeout : Int)
    (c : Client) (e : Option String) (path : String) (args : Args) (now : Int)
    (tr : TransportResult) (hc : New token timeout = NewResult.ok c e) :
    ((get c path args now tr).request).isSome = true ∧
    ∀ msg, (get c path args now tr).err ≠ some (GetErr.ratelimitErr msg) := by
  by_cases htok : token = ""
  · rw [htok] at hc
    simp [New] at hc
  · simp [New, htok] at hc
    obtain ⟨hc1, hc2⟩ := hc
    subst hc1
    cases tr <;> simp [get, checkRatelimit, mkRequest]

/-- C7 witness: the client from `New "t" 0`, path `/version`, zero args, a
failing transport. -/
theorem c7_witness :
    ((get cFresh "/version" args0 0 (TransportResult.failure "x")).request).isSome =
      true :=
  (c7_fresh_client_first_fetch_attempts "t" 0 cFresh none "/version" args0 0
    (TransportResult.failure "x") rfl).1

/-- C8 counterexample: a header set carrying only `retry-after = "5"` leaves
the state (3, 7) entirely unchanged and returns no error — the update step
never reads a retry-after header, so `resetAt` is not set to now plus 5
seconds (7 differs from 0 + 5 * 1000 already at `now = 0`). -/
theorem c8_counterexample_retry_after_ignored :
    updateRatelimit [("retry-after", "5")] { remaining := 3, reset := 7 } =
      ({ remaining := 3, reset := 7 }, none) ∧ (7 : Int) ≠ 0 + 5 * 1000 :=
  ⟨rfl, by decide⟩

/-- C8 (amended): the headers the update step consumes are
`x-ratelimit-remaining` and `x-ratelimit-reset`; a present
`x-ratelimit-reset` parsing as integer n sets `reset` to n directly (an
absolute timestamp, not now plus n); a non-integer value of either
consumed header makes the step return a parse error; a `retry-after`
header is ignored entirely. -/
theorem c8_reset_header_semantics (rl : ratelimit) (n : Int) (v w s : String)
    (hv : atoi v = Except.ok n) (hw : w ≠ "")
    (hwerr : ∃ e, atoi w = Except.error e) :
    updateRatelimit [("x-ratelimit-reset", v)] rl = ({ rl with reset := n }, none) ∧
    (∃ e, (updateRatelimit [("x-ratelimit-remaining", w)] rl).2 = some e) ∧
    (∃ e, (updateRatelimit [("x-ratelimit-reset", w)] rl).2 = some e) ∧
    updateRatelimit [("retry-after", s)] rl = (rl, none) := by
  have hv' : v ≠ "" := by
    intro h
    rw [h] at hv
    exact absurd hv (by simp [atoi])
  obtain ⟨e0, he0⟩ := hwerr
  have ha : headerGet [("x-ratelimit-reset", v)] "x-ratelimit-remaining" = "" := rfl
  have hb : headerGet [("x-ratelimit-reset", v)] "x-ratelimit-reset" = v := rfl
  have hrm : headerGet [("x-ratelimit-remaining", w)] "x-ratelimit-remaining" = w :=
    rfl
  have hrs : headerGet [("x-ratelimit-remaining", w)] "x-ratelimit-reset" = "" := rfl
  have hb2 : headerGet [("x-ratelimit-reset", w)] "x-ratelimit-remaining" = "" := rfl
  have hb3 : headerGet [("x-ratelimit-reset", w)] "x-ratelimit-reset" = w := rfl
  have hq1 : headerGet [("retry-after", s)] "x-ratelimit-remaining" = "" := rfl
  have hq2 : headerGet [("retry-after", s)] "x-ratelimit-reset" = "" := rfl
  refine ⟨?_, ⟨e0, ?_⟩, ⟨e0, ?_⟩, ?_⟩
  · simp [updateRatelimit, updateReset, ha, hb, hv, hv']
  · simp [updateRatelimit, hrm, hw, he0]
  · simp [updateRatelimit, updateReset, hb2, hb3, hw, he0]
  · simp [updateRatelimit, updateReset, hq1, hq2]

/-- C8 witness: reset header "42" on state (1, 2) gives (1, 42) and no
error; "abc" is the non-integer value. -/
theorem c8_witness :
    updateRatelimit [("x-ratelimit-reset", "42")] { remaining := 1, reset := 2 } =
      ({ remaining := 1, reset := 42 }, none) :=
  (c8_reset_header_semantics { remaining := 1, reset := 2 } 42 "42" "abc" "5" rfl
    (by decide) ⟨"strconv: invalid syntax", rfl⟩).1

/-- C9: when the admission check passes and the transport fails (no response
received), `get` returns the transport's error, no bytes, and a rate-limit
state identical to the one before the call: the update step never runs. -/
theorem c9_transport_failure_frame (c : Client) (path : String) (args : Args)
    (now : Int) (e : String)
    (hpass : checkRatelimit c.ratelimit now = none) :
    (get c path args now (TransportResult.failure e)).err =
      some (GetErr.transportErr e) ∧
    (get c path args now (TransportResult.failure e)).state = c.ratelimit ∧
    (get c path args now (TransportResult.failure e)).bytes = [] := by
  unfold get
  rw [hpass]
  exact ⟨rfl, rfl, rfl⟩

/-- C9 witness: fresh client, failing transport. -/
theorem c9_witness :
    (get cFresh "/version" args0 0 (TransportResult.failure "timeout")).state =
      cFresh.ratelimit :=
  (c9_transport_failure_frame cFresh "/version" args0 0 "timeout" rfl).2.1

/-- C10: `requiredForUpgrade.UnmarshalJSON` reads index 0 unconditionally:
the empty input panics; an input starting with a double quote yields -1
with a nil error for every integer-parsing behaviour (the parser is not
invoked); any other non-empty input delegates to the integer parser,
keeping the receiver on its error. -/
theorem c10_unmarshal_first_byte (p : List Char → Except String Int)
    (b : List Char) (r : Int) :
    (b = [] → requiredForUpgradeUnmarshalJSON p b r = UnmarshalResult.panic) ∧
    (∀ rest, b = quoteChar :: rest →
      ∀ q : List Char → Except String Int,
        requiredForUpgradeUnmarshalJSON q b r = UnmarshalResult.ok (-1) none) ∧
    (∀ c rest, b = c :: rest → c ≠ quoteChar →
      requiredForUpgradeUnmarshalJSON p b r =
        (match p b with
         | Except.ok v => UnmarshalResult.ok v none
         | Except.error e => UnmarshalResult.ok r (some e))) := by
  refine ⟨?_, ?_, ?_⟩
  · intro h
    subst h
    rfl
  · intro rest h q
    subst h
    simp [requiredForUpgradeUnmarshalJSON]
  · intro c rest h hc
    subst h
    simp [requiredForUpgradeUnmarshalJSON, hc]

/-- C10 witness: empty input panics; an input that is just a double quote
gives -1 and nil error under a parser that always errors. -/
theorem c10_witness :
    requiredForUpgradeUnmarshalJSON (fun _ => Except.error "boom") [] 0 =
      UnmarshalResult.panic ∧
    requiredForUpgradeUnmarshalJSON (fun _ => Except.error "boom") [quoteChar] 0 =
      UnmarshalResult.ok (-1) none :=
  ⟨(c10_unmarshal_first_byte (fun _ => Except.error "boom") [] 0).1 rfl,
   (c10_unmarshal_first_byte (fun _ => Except.error "boom") [quoteChar] 0).2.1 []
     rfl (fun _ => Except.error "boom")⟩

end Goroyale
